import Mathlib

/-!
Verification of the resilience / distributed-state layer of the
task-management backend: the namespaced Redis cache service, the
sliding-window rate-limit guard, the refresh-token rotation flow of the
auth service, and the circuit-breaker registry.

The TypeScript sources are shallowly embedded below.  Conventions:

* Redis (an external network service) is modelled as an explicit
  key-value state (`Kv`) plus, for the rate limiter, the timestamp
  members of a single sorted-set key (`List Int`).  Every client call
  takes an `up : Bool` flag: `up = false` means the store is
  unreachable and the call fails, which is how the `try/catch` blocks
  of the services are exercised.
* Time is passed explicitly (`now`), in seconds for the key-value cache
  (TTLs are seconds) and in milliseconds for the rate limiter
  (timestamps are `Date.now()` values).  A key written with TTL `t` at
  time `n` is live strictly before `n + t` and gone afterwards, which
  is Redis's visible expiry behaviour.
* JavaScript truthiness in `a || b` defaults (`0`, `''`, `null`,
  `undefined` are falsy) is embedded by `jsOrI` / `jsOrS`.
* `JSON.stringify` / `JSON.parse` are embedded as an explicit
  `Serializer` record; the JSON round-trip contract of the spec is the
  hypothesis `parse (stringify v) = some v`.
-/

/-- JavaScript `a || b` for an optional integer `a`: `undefined` and `0`
are falsy and fall through to `b`. -/
def jsOrI (a : Option Int) (b : Int) : Int :=
  match a with
  | none => b
  | some x => if x = 0 then b else x

/-- JavaScript `a || b` for an optional string `a`: `undefined` and the
empty string are falsy and fall through to `b`. -/
def jsOrS (a : Option String) (b : String) : String :=
  match a with
  | none => b
  | some x => if x = "" then b else x

/-- JavaScript `Math.ceil(x / 1000)` on an integer `x`. -/
def jsCeilDiv1000 (x : Int) : Int :=
  -((-x).ediv 1000)

/-- One Redis string key: full (already namespaced) key, stored payload,
and optional absolute expiry instant. -/
structure KvEntry where
  key : String
  value : String
  expiresAt : Option Int
deriving DecidableEq, Repr

/-- The visible state of the Redis string keyspace. -/
abbrev Kv := List KvEntry

/-- Whether an entry with the given expiry is live at instant `now`. -/
def liveAt (now : Int) (e : Option Int) : Bool :=
  match e with
  | none => true
  | some d => decide (now < d)

/-- Read the live value stored under full key `k` at instant `now`. -/
def liveGet (kv : Kv) (now : Int) (k : String) : Option String :=
  match kv.find? (fun e => e.key == k) with
  | some e => if liveAt now e.expiresAt then some e.value else none
  | none => none

/-- Remove any binding of full key `k`. -/
def kvRemove (kv : Kv) (k : String) : Kv :=
  kv.filter (fun e => !(e.key == k))

/-- Overwrite full key `k` with payload `v` and expiry `dl`. -/
def kvWrite (kv : Kv) (k v : String) (dl : Option Int) : Kv :=
  ⟨k, v, dl⟩ :: kvRemove kv k

/-- Failure of a raw Redis client call. -/
inductive StoreErr where
  | unavailable
  | notInteger
deriving DecidableEq, Repr

/-- Redis `GET`. -/
def clientGet (up : Bool) (kv : Kv) (now : Int) (k : String) :
    Except StoreErr (Option String) :=
  if up then .ok (liveGet kv now k) else .error .unavailable

/-- Redis `SET` (no expiry). -/
def clientSet (up : Bool) (kv : Kv) (k v : String) : Except StoreErr Kv :=
  if up then .ok (kvWrite kv k v none) else .error .unavailable

/-- Redis `SETEX`: write with a TTL of `ttl` seconds from `now`. -/
def clientSetex (up : Bool) (kv : Kv) (now : Int) (k : String) (ttl : Int) (v : String) :
    Except StoreErr Kv :=
  if up then .ok (kvWrite kv k v (some (now + ttl))) else .error .unavailable

/-- Redis `DEL` of one key: returns the number of keys removed. -/
def clientDel (up : Bool) (kv : Kv) (now : Int) (k : String) :
    Except StoreErr (Nat × Kv) :=
  if up then
    .ok ((if (liveGet kv now k).isSome then 1 else 0), kvRemove kv k)
  else .error .unavailable

/-- Redis `EXISTS` of one key. -/
def clientExists (up : Bool) (kv : Kv) (now : Int) (k : String) :
    Except StoreErr Nat :=
  if up then .ok (if (liveGet kv now k).isSome then 1 else 0)
  else .error .unavailable

/-- Redis `INCR`: missing key counts from zero, a non-integer payload is
a server error; the key's TTL is preserved. -/
def clientIncr (up : Bool) (kv : Kv) (now : Int) (k : String) :
    Except StoreErr (Int × Kv) :=
  if up then
    match kv.find? (fun e => e.key == k) with
    | none => .ok (1, kvWrite kv k "1" none)
    | some e =>
      if liveAt now e.expiresAt then
        match e.value.toInt? with
        | some n => .ok (n + 1, kvWrite kv k (toString (n + 1)) e.expiresAt)
        | none => .error .notInteger
      else .ok (1, kvWrite kv k "1" none)
  else .error .unavailable

/-- Redis glob matching as used by `SCAN MATCH`; only the `*` and `?`
wildcards appear in this repository's patterns. -/
def globMatch : List Char → List Char → Bool
  | [], s => s.isEmpty
  | p :: ps, s =>
    if p = '*' then
      match s with
      | [] => globMatch ps []
      | _ :: cs => globMatch ps s || globMatch (p :: ps) cs
    else if p = '?' then
      match s with
      | [] => false
      | _ :: cs => globMatch ps cs
    else
      match s with
      | [] => false
      | c :: cs => (p == c) && globMatch ps cs
termination_by p s => (p.length, s.length)

/-- Glob matching on strings. -/
def strGlobMatch (p s : String) : Bool :=
  globMatch p.data s.data

/-- Redis `SCAN MATCH pattern` over the live keys followed by `DEL` of
every match, as the services' scan-streams do.  Returns the number of
deleted keys, the list of matched keys, and the remaining state. -/
def clientScanDel (up : Bool) (kv : Kv) (now : Int) (pat : String) :
    Except StoreErr (Nat × List String × Kv) :=
  if up then
    let ks := (kv.filter (fun e => liveAt now e.expiresAt && strGlobMatch pat e.key)).map (·.key)
    .ok (ks.length, ks,
      kv.filter (fun e => !(liveAt now e.expiresAt && strGlobMatch pat e.key)))
  else .error .unavailable

/-- The `stringify` / `parse` pair standing for `JSON.stringify` and
`JSON.parse` at the cache boundary; the spec's JSON round-trip contract
is `parse (stringify v) = some v` (a `parse` miss stands for a thrown
`JSON.parse` exception). -/
structure Serializer (α : Type) where
  stringify : α → String
  parse : String → Option α

/-- `CacheOptions` of `redis-cache.service.ts` (the `namespace` field is
renamed `nspace`, `namespace` being a Lean keyword). -/
structure CacheOptions where
  ttl : Option Int := none
  nspace : Option String := none
deriving DecidableEq, Repr

/-- Namespace component of an optional `CacheOptions` argument
(`options?.namespace`). -/
def optNs (o : Option CacheOptions) : Option String :=
  o.bind (·.nspace)

/-- TTL component of an optional `CacheOptions` argument
(`options?.ttl`). -/
def optTtl (o : Option CacheOptions) : Option Int :=
  o.bind (·.ttl)

/-- `RedisCacheService.buildKey`: `const ns = namespace ||
this.defaultNamespace; return ns + ':' + key` with default namespace
`'app'`. -/
def buildKey (key : String) (ns : Option String) : String :=
  jsOrS ns "app" ++ ":" ++ key

/-- Result of one cache-service operation: the value returned to the
caller (an `Except` when the method can throw), the resulting store
state, and the full keys / patterns handed to the Redis client. -/
structure CacheOp (β : Type) where
  result : β
  store : Kv
  touched : List String
deriving Repr

/-- `RedisCacheService.set`: resolves the TTL by JS truthiness
(`ttlSeconds || options?.ttl || 300`), serializes, then `SETEX` when the
resolved TTL is positive and plain `SET` otherwise; a store failure is
rethrown (`catch { throw error }`). -/
def RedisCacheService.set {α : Type} (S : Serializer α) (up : Bool) (kv : Kv) (now : Int)
    (key : String) (value : α) (ttlSeconds : Option Int) (options : Option CacheOptions) :
    CacheOp (Except StoreErr Unit) :=
  let fullKey := buildKey key (optNs options)
  let ttl := jsOrI ttlSeconds (jsOrI (optTtl options) 300)
  let sv := S.stringify value
  if 0 < ttl then
    match clientSetex up kv now fullKey ttl sv with
    | .ok kv2 => ⟨.ok (), kv2, [fullKey]⟩
    | .error e => ⟨.error e, kv, [fullKey]⟩
  else
    match clientSet up kv fullKey sv with
    | .ok kv2 => ⟨.ok (), kv2, [fullKey]⟩
    | .error e => ⟨.error e, kv, [fullKey]⟩

/-- `RedisCacheService.get`: a store failure or a `JSON.parse` failure
is caught and becomes `null`; a missing or falsy (empty) payload is also
`null`. -/
def RedisCacheService.get {α : Type} (S : Serializer α) (up : Bool) (kv : Kv) (now : Int)
    (key : String) (options : Option CacheOptions) : CacheOp (Option α) :=
  let fullKey := buildKey key (optNs options)
  match clientGet up kv now fullKey with
  | .error _ => ⟨none, kv, [fullKey]⟩
  | .ok none => ⟨none, kv, [fullKey]⟩
  | .ok (some v) => ⟨if v = "" then none else S.parse v, kv, [fullKey]⟩

/-- `RedisCacheService.delete`: returns whether a key was removed; a
store failure is caught and becomes a normal `false` return. -/
def RedisCacheService.delete (up : Bool) (kv : Kv) (now : Int)
    (key : String) (options : Option CacheOptions) : CacheOp (Except StoreErr Bool) :=
  let fullKey := buildKey key (optNs options)
  match clientDel up kv now fullKey with
  | .ok (n, kv2) => ⟨.ok (decide (0 < n)), kv2, [fullKey]⟩
  | .error _ => ⟨.ok false, kv, [fullKey]⟩

/-- `RedisCacheService.deleteByPattern`: scans the namespaced pattern
and deletes every match; a store failure is caught and becomes a normal
`0` return. -/
def RedisCacheService.deleteByPattern (up : Bool) (kv : Kv) (now : Int)
    (pattern : String) (options : Option CacheOptions) : CacheOp (Except StoreErr Nat) :=
  let nspace := jsOrS (optNs options) "app"
  let fullPattern := nspace ++ ":" ++ pattern
  match clientScanDel up kv now fullPattern with
  | .ok (cnt, ks, kv2) => ⟨.ok cnt, kv2, fullPattern :: ks⟩
  | .error _ => ⟨.ok 0, kv, [fullPattern]⟩

/-- `RedisCacheService.has`: `EXISTS` compared to `1`; a store failure
is caught and becomes `false`. -/
def RedisCacheService.has (up : Bool) (kv : Kv) (now : Int)
    (key : String) (options : Option CacheOptions) : CacheOp Bool :=
  let fullKey := buildKey key (optNs options)
  match clientExists up kv now fullKey with
  | .ok n => ⟨decide (n = 1), kv, [fullKey]⟩
  | .error _ => ⟨false, kv, [fullKey]⟩

/-- `RedisCacheService.clear`: scan-and-delete of `ns + ':*'`; a store
failure is rethrown. -/
def RedisCacheService.clear (up : Bool) (kv : Kv) (now : Int)
    (ns : Option String) : CacheOp (Except StoreErr Unit) :=
  let nspace := jsOrS ns "app"
  let pat := nspace ++ ":*"
  match clientScanDel up kv now pat with
  | .ok (_, ks, kv2) => ⟨.ok (), kv2, pat :: ks⟩
  | .error e => ⟨.error e, kv, [pat]⟩

/-- `RedisCacheService.mget`: `MGET` over the namespaced keys; each
falsy (missing or empty) payload and each `JSON.parse` failure becomes
`null`; a store failure is caught and becomes all-`null`. -/
def RedisCacheService.mget {α : Type} (S : Serializer α) (up : Bool) (kv : Kv) (now : Int)
    (keys : List String) (options : Option CacheOptions) : CacheOp (List (Option α)) :=
  let fullKeys := keys.map (fun k => buildKey k (optNs options))
  if up then
    ⟨fullKeys.map (fun fk =>
        match liveGet kv now fk with
        | none => none
        | some v => if v = "" then none else S.parse v),
      kv, fullKeys⟩
  else ⟨keys.map (fun _ => none), kv, fullKeys⟩

/-- One entry of the `mset` batch (`{key, value, ttl?}`). -/
structure MsetEntry (α : Type) where
  key : String
  value : α
  ttl : Option Int := none

/-- `RedisCacheService.mset`: a pipeline of per-entry `SETEX` (when the
entry's TTL is truthy and positive) or `SET`; a store failure is
rethrown. -/
def RedisCacheService.mset {α : Type} (S : Serializer α) (up : Bool) (kv : Kv) (now : Int)
    (pairs : List (MsetEntry α)) (options : Option CacheOptions) :
    CacheOp (Except StoreErr Unit) :=
  let nspace := jsOrS (optNs options) "app"
  let fullKeys := pairs.map (fun e => buildKey e.key (some nspace))
  if up then
    ⟨.ok (),
      pairs.foldl (fun acc e =>
        let fk := buildKey e.key (some nspace)
        match e.ttl with
        | some t =>
          if 0 < t then kvWrite acc fk (S.stringify e.value) (some (now + t))
          else kvWrite acc fk (S.stringify e.value) none
        | none => kvWrite acc fk (S.stringify e.value) none) kv,
      fullKeys⟩
  else ⟨.error .unavailable, kv, fullKeys⟩

/-- `RedisCacheService.increment`: `INCR` of the namespaced key; a store
failure is rethrown. -/
def RedisCacheService.increment (up : Bool) (kv : Kv) (now : Int)
    (key : String) (options : Option CacheOptions) : CacheOp (Except StoreErr Int) :=
  let fullKey := buildKey key (optNs options)
  match clientIncr up kv now fullKey with
  | .ok (n, kv2) => ⟨.ok n, kv2, [fullKey]⟩
  | .error e => ⟨.error e, kv, [fullKey]⟩

/-- Rejection body thrown by `RateLimitGuard.canActivate` on a 429 (the
human-readable `message` string, which interpolates the same numbers, is
omitted). -/
structure RejectBody where
  statusCode : Nat
  limit : Nat
  current : Nat
  remaining : Nat
  retryAfter : Int
deriving DecidableEq, Repr

/-- Outcome of one admission check: either the request is admitted and
the `X-RateLimit-Limit` / `-Remaining` / `-Reset` headers are set, or it
is rejected with a 429 body. -/
inductive Decision where
  | admitted (limitHdr : Nat) (remainingHdr : Int) (resetAt : Int)
  | rejected (body : RejectBody)
deriving DecidableEq, Repr

/-- `zremrangebyscore key 0 windowStart`: drop every member whose score
lies in `[0, windowStart]`. -/
def evict (members : List Int) (windowStart : Int) : List Int :=
  members.filter (fun s => !(decide (0 ≤ s) && decide (s ≤ windowStart)))

/-- `zadd key ts ts`: the member is the timestamp itself, so adding an
already-present timestamp leaves the sorted set unchanged. -/
def zaddTs (members : List Int) (ts : Int) : List Int :=
  if ts ∈ members then members else members ++ [ts]

/-- `RateLimitGuard.canActivate` on one rate-limit key with a reachable
store: evict timestamps older than `now - windowMs`, count, then either
reject with the 429 body (the `ttl` client reply `ttlNow`, in seconds,
feeds `retryAfter`) or admit, insert `now`, and report the headers. -/
def canActivateUp (limit : Nat) (windowMs now ttlNow : Int) (members : List Int) :
    Decision × List Int :=
  let m1 := evict members (now - windowMs)
  let count := m1.length
  if limit ≤ count then
    (.rejected ⟨429, limit, count, 0,
        jsCeilDiv1000 (if 0 < ttlNow then ttlNow else windowMs)⟩, m1)
  else
    (.admitted limit (max 0 ((limit : Int) - count - 1)) (now + windowMs),
      zaddTs m1 now)

/-- `RateLimitGuard.canActivate` including the unreachable-store
behaviour: `getCurrentCount` catches the failure and reports `0`, and
`incrementCount` catches the failure and leaves the window unchanged, so
the request is admitted; only in the degenerate `limit = 0` case does
the rejection branch run its unguarded `ttl` client call and surface the
raw store error. -/
def canActivate (up : Bool) (limit : Nat) (windowMs now ttlNow : Int)
    (members : List Int) : Except Unit (Decision × List Int) :=
  if up then .ok (canActivateUp limit windowMs now ttlNow members)
  else if limit = 0 then .error ()
  else .ok (.admitted limit (max 0 ((limit : Int) - 1)) (now + windowMs), members)

/-- Sequential (non-racing) admission checks at instants `ts` against
one rate-limit key, with the store reachable throughout; `ttlOf` is the
`ttl` reply the Redis client would give at each instant. -/
def runChecks (limit : Nat) (windowMs : Int) (ttlOf : Int → Int)
    (members : List Int) : List Int → List Decision × List Int
  | [] => ([], members)
  | t :: rest =>
    let s := canActivateUp limit windowMs t (ttlOf t) members
    let r := runChecks limit windowMs ttlOf s.2 rest
    (s.1 :: r.1, r.2)

/-- Decision sequence asserted by the spec for `N` sequential requests
in one window starting from `k` already-admitted ones: request number
`k+1` is admitted with `remaining = limit - (k+1)` and reset `now +
windowMs` while `k < limit`, and every later request is rejected with
`current = limit`, `remaining = 0`. -/
def expectedDecisions (limit : Nat) (windowMs : Int) (ttlOf : Int → Int)
    (k : Nat) : List Int → List Decision
  | [] => []
  | t :: rest =>
    if k < limit then
      .admitted limit ((limit : Int) - (k + 1)) (t + windowMs) ::
        expectedDecisions limit windowMs ttlOf (k + 1) rest
    else
      .rejected ⟨429, limit, limit, 0,
          jsCeilDiv1000 (if 0 < ttlOf t then ttlOf t else windowMs)⟩ ::
        expectedDecisions limit windowMs ttlOf (k + 1) rest

/-- Number of admitted decisions in a run. -/
def countAdmitted (ds : List Decision) : Nat :=
  ds.countP (fun d => match d with | .admitted _ _ _ => true | .rejected _ => false)

/-- A user row as the auth service reads it from `UsersService`. -/
structure User where
  id : String
  email : String
  name : String
  role : String
deriving DecidableEq, Repr

/-- `UsersService.findOne` (external collaborator): lookup by id. -/
def findOne (users : List User) (id : String) : Option User :=
  users.find? (fun u => u.id == id)

/-- Claims of a refresh JWT (`{sub, tokenId, type}`); signing and
signature verification are the JWT library's concern, so a credential
that reaches `verifyRefreshToken` without throwing is represented by its
payload. -/
structure RefreshPayload where
  sub : String
  tokenId : String
  type : String
deriving DecidableEq, Repr

/-- The `refreshTokenData` record stored in Redis at issuance. -/
structure RefreshTokenData where
  userId : String
  email : String
  role : String
  tokenId : String
  createdAt : String
deriving DecidableEq, Repr

/-- Concrete injective encoding standing for `JSON.stringify` of a
`RefreshTokenData` (fields joined by `'|'`, none of the repository's
field values containing that character). -/
def encodeRTD (d : RefreshTokenData) : String :=
  d.userId ++ "|" ++ d.email ++ "|" ++ d.role ++ "|" ++ d.tokenId ++ "|" ++ d.createdAt

/-- Split a character list at `'|'`. -/
def splitOnBar : List Char → List Char → List (List Char)
  | [], acc => [acc.reverse]
  | c :: cs, acc =>
    if c = '|' then acc.reverse :: splitOnBar cs []
    else splitOnBar cs (c :: acc)

/-- Decoder matching `encodeRTD`. -/
def decodeRTD (s : String) : Option RefreshTokenData :=
  match (splitOnBar s.data []).map (fun l => String.mk l) with
  | [a, b, c, d, e] => some ⟨a, b, c, d, e⟩
  | _ => none

/-- Serializer used for stored refresh-token records. -/
def rtdSerializer : Serializer RefreshTokenData :=
  ⟨encodeRTD, decodeRTD⟩

/-- Errors surfaced by `AuthService.refreshToken`. -/
inductive AuthErr where
  | refreshTokenRequired
  | invalidOrExpired
  | userNotFound
  | store (e : StoreErr)
deriving DecidableEq, Repr

/-- `AuthService.verifyRefreshToken`: after signature verification the
payload must carry `type = 'refresh'` and a truthy `tokenId`, and the
record must still exist under `refresh_token:<tokenId>:<sub>` in the
`auth` namespace; on success the `(userId, tokenId)` pair is returned. -/
def AuthService.verifyRefreshToken (up : Bool) (kv : Kv) (now : Int)
    (p : RefreshPayload) : Option (String × String) :=
  if p.type ≠ "refresh" ∨ p.tokenId = "" then none
  else
    match (RedisCacheService.get rtdSerializer up kv now
        ("refresh_token:" ++ p.tokenId ++ ":" ++ p.sub)
        (some { nspace := some "auth" })).result with
    | none => none
    | some _ => some (p.sub, p.tokenId)

/-- `AuthService.generateTokens`: stores the new record under
`refresh_token:<newTokenId>:<userId>` in the `auth` namespace with the
configured refresh TTL, and returns the new refresh credential's
payload (the signed JWT strings themselves are the JWT library's
output). -/
def AuthService.generateTokens (up : Bool) (kv : Kv) (now : Int) (refreshTTL : Int)
    (userId email role newTokenId : String) : Except StoreErr (RefreshPayload × Kv) :=
  let d : RefreshTokenData := ⟨userId, email, role, newTokenId, toString now⟩
  let r := RedisCacheService.set rtdSerializer up kv now
      ("refresh_token:" ++ newTokenId ++ ":" ++ userId) d (some refreshTTL)
      (some { nspace := some "auth" })
  match r.result with
  | .ok _ => .ok (⟨userId, newTokenId, "refresh"⟩, r.store)
  | .error e => .error e

/-- `AuthService.revokeRefreshToken`: deletes `refresh_token:<tokenId>`
through the cache service with no options, hence in the default
namespace and without the `:<userId>` suffix. -/
def AuthService.revokeRefreshToken (up : Bool) (kv : Kv) (now : Int)
    (tokenId : Option String) : Kv :=
  match tokenId with
  | some tid =>
    if tid = "" then kv
    else (RedisCacheService.delete up kv now ("refresh_token:" ++ tid) none).store
  | none => kv

/-- `AuthService.refreshToken`: verify the credential, look up the user,
revoke the old record (token rotation), then issue new tokens.  A `none`
credential stands for a missing/empty `refreshToken` argument. -/
def AuthService.refreshToken (up : Bool) (users : List User) (kv : Kv) (now : Int)
    (refreshTTL : Int) (credential : Option RefreshPayload) (newTokenId : String) :
    Except AuthErr (RefreshPayload × Kv) :=
  match credential with
  | none => .error .refreshTokenRequired
  | some p =>
    match AuthService.verifyRefreshToken up kv now p with
    | none => .error .invalidOrExpired
    | some (userId, tokenId) =>
      match findOne users userId with
      | none => .error .userNotFound
      | some user =>
        let kv1 := AuthService.revokeRefreshToken up kv now (some tokenId)
        match AuthService.generateTokens up kv1 now refreshTTL
            user.id user.email user.role newTokenId with
        | .ok (np, kv2) => .ok (np, kv2)
        | .error e => .error (.store e)

/-- Outcome of one call that went through the opossum `CircuitBreaker`:
the wrapped operation's own success or failure, the configured fallback,
or the open-state short-circuit error. -/
inductive FireOutcome (R : Type) where
  | success (r : R)
  | failure
  | fromFallback (r : R)
  | shortCircuit
deriving DecidableEq, Repr

/-- Breaker state of the opossum library. -/
inductive BState where
  | closed
  | opened
  | halfOpen
deriving DecidableEq, Repr

/-- `CircuitBreakerOptions` of `circuit-breaker.service.ts`. -/
structure CircuitBreakerOptions (R : Type) where
  timeout : Option Int := none
  errorThresholdPercentage : Option Int := none
  resetTimeout : Option Int := none
  enabled : Option Bool := none
  fallback : Option (Unit → R) := none

/-- Options after merging `{...defaultOptions, ...options}`. -/
structure ResolvedOptions where
  timeout : Int
  errorThresholdPercentage : Int
  resetTimeout : Int
  enabled : Bool
deriving DecidableEq, Repr

/-- Configuration values read from `ConfigService` in
`createCircuitBreaker`. -/
structure CBConfig where
  timeout : Option Int := none
  errorThresholdPercentage : Option Int := none
  resetTimeout : Option Int := none
  enabled : Option Bool := none
deriving DecidableEq, Repr

/-- One cached opossum breaker: the wrapped operation (with its outcome
when invoked), the resolved options, the configured fallback, and the
breaker state. -/
structure CircuitBreaker (R : Type) where
  fn : Unit → Except Unit R
  opts : ResolvedOptions
  fb : Option (Unit → R)
  state : BState

/-- Modelled from the opossum dependency (external to this repository,
behaviour per spec section 4.4): `breaker.fire()` invokes the wrapped
operation unless the breaker is open; an open breaker, or a failed
invocation, answers with the configured fallback when one was set, and
otherwise with the short-circuit error respectively the operation's own
failure. -/
def fire {R : Type} (b : CircuitBreaker R) : FireOutcome R :=
  match b.state with
  | .opened =>
    match b.fb with
    | some f => .fromFallback (f ())
    | none => .shortCircuit
  | _ =>
    match b.fn () with
    | .ok r => .success r
    | .error _ =>
      match b.fb with
      | some f => .fromFallback (f ())
      | none => .failure

/-- Lookup in the `name -> breaker` registry map. -/
def lookupBreaker {R : Type} (reg : List (String × CircuitBreaker R)) (name : String) :
    Option (CircuitBreaker R) :=
  (reg.find? (fun e => e.1 == name)).map (·.2)

/-- Breaker constructed by `createCircuitBreaker` on a registry miss:
defaults come from configuration (3000 ms timeout, 50 percent threshold,
30000 ms reset, enabled unless configured `false`), the supplied options
override them field-wise, and the fallback is installed when supplied;
a fresh opossum breaker starts closed. -/
def mkBreaker {R : Type} (fn : Unit → Except Unit R)
    (options : Option (CircuitBreakerOptions R)) (cfg : CBConfig) : CircuitBreaker R :=
  let d : ResolvedOptions :=
    { timeout := jsOrI cfg.timeout 3000
      errorThresholdPercentage := jsOrI cfg.errorThresholdPercentage 50
      resetTimeout := jsOrI cfg.resetTimeout 30000
      enabled := cfg.enabled ≠ some false }
  { fn := fn
    opts :=
      { timeout := ((options.bind (·.timeout)).getD d.timeout)
        errorThresholdPercentage :=
          ((options.bind (·.errorThresholdPercentage)).getD d.errorThresholdPercentage)
        resetTimeout := ((options.bind (·.resetTimeout)).getD d.resetTimeout)
        enabled := ((options.bind (·.enabled)).getD d.enabled) }
    fb := options.bind (·.fallback)
    state := .closed }

/-- `CircuitBreakerService.createCircuitBreaker`: return the cached
breaker for `name` when one exists, otherwise build one from the
supplied operation and options and cache it. -/
def CircuitBreakerService.createCircuitBreaker {R : Type}
    (reg : List (String × CircuitBreaker R)) (name : String)
    (fn : Unit → Except Unit R) (options : Option (CircuitBreakerOptions R))
    (cfg : CBConfig) : CircuitBreaker R × List (String × CircuitBreaker R) :=
  match lookupBreaker reg name with
  | some b => (b, reg)
  | none => (mkBreaker fn options cfg, (name, mkBreaker fn options cfg) :: reg)

/-- `CircuitBreakerService.execute`: create-or-get the breaker for
`name`, then `breaker.fire()`. -/
def CircuitBreakerService.execute {R : Type}
    (reg : List (String × CircuitBreaker R)) (name : String)
    (fn : Unit → Except Unit R) (options : Option (CircuitBreakerOptions R))
    (cfg : CBConfig) : FireOutcome R × List (String × CircuitBreaker R) :=
  let p := CircuitBreakerService.createCircuitBreaker reg name fn options cfg
  (fire p.1, p.2)

-- Equality of `Except` values is decidable when it is for their
-- components (used to evaluate concrete scenarios).
deriving instance DecidableEq for Except

/-! ## Concrete scenarios used by the closed theorems -/

/-- Trivial serializer used in concrete cache scenarios (a string value
standing for an already-JSON-encoded payload). -/
def idSer : Serializer String := ⟨fun s => s, fun s => some s⟩

/-- User table of the token-replay scenario. -/
def c1users : List User := [⟨"u1", "u1@example.com", "U One", "user"⟩]

/-- The refresh credential's payload in the token-replay scenario. -/
def c1p : RefreshPayload := ⟨"u1", "t1", "refresh"⟩

/-- Store state after the first issuance: one refresh-token record for
user `u1` under token id `t1`, stored by `generateTokens` under the
`auth` namespace with the 7-day TTL. -/
def c1kv0 : Kv :=
  [⟨"auth:refresh_token:t1:u1",
    encodeRTD ⟨"u1", "u1@example.com", "user", "t1", "0"⟩, some 604800⟩]

/-- First `refreshToken` call: consumes the credential and rotates. -/
def c1first : Except AuthErr (RefreshPayload × Kv) :=
  AuthService.refreshToken true c1users c1kv0 0 604800 (some c1p) "t2"

/-- Store state after the first (successful) consume-and-rotate. -/
def c1kv1 : Kv :=
  match c1first with
  | .ok (_, kv) => kv
  | .error _ => []

/-- Second `refreshToken` call presenting the very same credential. -/
def c1second : Except AuthErr (RefreshPayload × Kv) :=
  AuthService.refreshToken true c1users c1kv1 0 604800 (some c1p) "t3"

/-- C1.  The claim says a second `refreshToken` call with an
already-consumed credential always rejects with `Invalid or expired
refresh token` because the consumed record was deleted.  In the code the
record is stored under `refresh_token:<tokenId>:<userId>` in the `auth`
namespace, but `revokeRefreshToken` deletes `refresh_token:<tokenId>` —
no `:<userId>` suffix and, lacking an options argument, in the default
`app` namespace — so the consumed record survives rotation: after a
successful first call the record is still live and the replayed second
call succeeds instead of rejecting. -/
theorem auth_refresh_replay_not_blocked :
    c1first.isOk = true ∧
    (liveGet c1kv1 0 "auth:refresh_token:t1:u1").isSome = true ∧
    c1second.isOk = true ∧
    c1second ≠ .error .invalidOrExpired := by
  have h2 : c1second.isOk = true := by decide
  refine ⟨by decide, by decide, h2, ?_⟩
  intro h
  rw [h] at h2
  exact absurd h2 (by decide)

/-- C5.  Concrete rejection showing the `retryAfter` bug: limit 1,
window 60000 ms, one live timestamp, and the Redis `ttl` reply is 60
(seconds remaining on the window record).  The claim says the rejection
carries `retryAfter` equal to that remaining time-to-live in seconds,
i.e. 60; the code computes `Math.ceil((ttl > 0 ? ttl : windowMs) /
1000)`, dividing the already-in-seconds TTL by 1000, and reports 1.
The `limit`, `current` and `remaining = 0` fields, and the
unknown-TTL fallback `windowMs / 1000`, match the claim. -/
theorem limiter_retry_after_bug :
    canActivateUp 1 60000 100000 60 [99999] =
      (.rejected ⟨429, 1, 1, 0, 1⟩, [99999]) ∧
    canActivateUp 1 60000 100000 (-2) [99999] =
      (.rejected ⟨429, 1, 1, 0, 60⟩, [99999]) ∧
    (1 : Int) ≠ 60 := by
  refine ⟨by decide, by decide, by decide⟩

/-- C2, counterexample.  With the store failing, `delete` ends in a
normal `false` return and `deleteByPattern` in a normal `0` return —
neither call ends in an error, contradicting the claim that both
propagate store failures to the caller. -/
theorem cache_delete_error_swallowed_cex :
    (RedisCacheService.delete false [] 0 "k" none).result = .ok false ∧
    (RedisCacheService.deleteByPattern false [] 0 "p" none).result = .ok 0 := by
  refine ⟨rfl, rfl⟩

/-- C2, amended.  For every key and store failure during the operation:
`set` propagates the failure (the call ends in an error), `get` returns
absent, while `delete` swallows the failure into a normal `false` return
and `deleteByPattern` into a normal `0` return. -/
theorem cache_failure_policy_amended :
    ∀ (α : Type) (S : Serializer α) (kv : Kv) (now : Int) (k : String) (v : α)
      (ttl : Option Int) (opts : Option CacheOptions) (pat : String),
    (RedisCacheService.set S false kv now k v ttl opts).result = .error .unavailable ∧
    (RedisCacheService.get S false kv now k opts).result = none ∧
    (RedisCacheService.delete false kv now k opts).result = .ok false ∧
    (RedisCacheService.deleteByPattern false kv now pat opts).result = .ok 0 := by
  intro α S kv now k v ttl opts pat
  refine ⟨?_, rfl, rfl, rfl⟩
  simp only [RedisCacheService.set, clientSetex, clientSet, Bool.false_eq_true, if_false]
  split <;> rfl

/-- C3, counterexample.  `set("k", "v")` with the TTL argument absent
(and no options) does not store the entry without expiry: the JS-falsy
default chain `ttlSeconds || options?.ttl || this.defaultTTL` resolves
to the 300-second default, so a `get` 301 seconds later returns absent,
contradicting "get(k) returns v at any later time". -/
theorem cache_default_ttl_cex :
    (RedisCacheService.get idSer true
        (RedisCacheService.set idSer true [] 0 "k" "v" none none).store
        301 "k" none).result = none ∧
    (RedisCacheService.set idSer true [] 0 "k" "v" none none).store =
      [⟨"app:k", "v", some 300⟩] := by
  refine ⟨rfl, rfl⟩

/-- Reading back the key just written sees the fresh payload while it is
live. -/
theorem liveGet_kvWrite_same (kv : Kv) (k v : String) (dl : Option Int) (now : Int) :
    liveGet (kvWrite kv k v dl) now k = if liveAt now dl then some v else none := by
  simp [liveGet, kvWrite, List.find?_cons]

/-- General cache round trip: a `set` whose resolved TTL is positive
stores for exactly that many seconds, and a later `get` of the same key
returns the value while live and absent afterwards. -/
theorem set_get_roundtrip (α : Type) (S : Serializer α) (kv : Kv) (t0 : Int) (k : String)
    (v : α) (ttlSeconds : Option Int) (opts : Option CacheOptions) (now : Int)
    (hrt : S.parse (S.stringify v) = some v) (hne : S.stringify v ≠ "")
    (hT : 0 < jsOrI ttlSeconds (jsOrI (optTtl opts) 300)) :
    (RedisCacheService.get S true
        (RedisCacheService.set S true kv t0 k v ttlSeconds opts).store now k opts).result
      = if now < t0 + jsOrI ttlSeconds (jsOrI (optTtl opts) 300) then some v else none := by
  have hset : (RedisCacheService.set S true kv t0 k v ttlSeconds opts).store =
      kvWrite kv (buildKey k (optNs opts)) (S.stringify v)
        (some (t0 + jsOrI ttlSeconds (jsOrI (optTtl opts) 300))) := by
    simp only [RedisCacheService.set, clientSetex, if_pos hT, if_true]
  rw [hset]
  by_cases h : now < t0 + jsOrI ttlSeconds (jsOrI (optTtl opts) 300)
  · rw [if_pos h]
    simp only [RedisCacheService.get, clientGet, if_true, liveGet_kvWrite_same, liveAt,
      decide_eq_true_eq, if_pos h, if_neg hne, hrt]
  · rw [if_neg h]
    simp only [RedisCacheService.get, clientGet, if_true, liveGet_kvWrite_same, liveAt,
      decide_eq_true_eq, if_neg h]

/-- C3, amended.  For every JSON-round-trippable value: `set(k, v,
ttl=T)` with `T > 0` followed by `get(k)` returns `v` while fewer than
`T` seconds have elapsed and absent once more than `T` have; but when
the TTL argument is absent (and the options carry none), the entry is
stored with the 300-second default TTL — not without expiry — so `get`
returns `v` before 300 seconds have elapsed and absent afterwards. -/
theorem cache_ttl_roundtrip_amended :
    ∀ (α : Type) (S : Serializer α) (kv : Kv) (t0 : Int) (k : String) (v : α)
      (opts : Option CacheOptions) (T e : Int),
    S.parse (S.stringify v) = some v → S.stringify v ≠ "" →
    (0 < T → e < T →
      (RedisCacheService.get S true
          (RedisCacheService.set S true kv t0 k v (some T) opts).store (t0 + e) k opts).result
        = some v) ∧
    (0 < T → T < e →
      (RedisCacheService.get S true
          (RedisCacheService.set S true kv t0 k v (some T) opts).store (t0 + e) k opts).result
        = none) ∧
    (optTtl opts = none → e < 300 →
      (RedisCacheService.get S true
          (RedisCacheService.set S true kv t0 k v none opts).store (t0 + e) k opts).result
        = some v) ∧
    (optTtl opts = none → 300 < e →
      (RedisCacheService.get S true
          (RedisCacheService.set S true kv t0 k v none opts).store (t0 + e) k opts).result
        = none) := by
  intro α S kv t0 k v opts T e hrt hne
  refine ⟨?_, ?_, ?_, ?_⟩
  · intro hT he
    have hj : jsOrI (some T) (jsOrI (optTtl opts) 300) = T := by
      simp [jsOrI]
      omega
    rw [set_get_roundtrip α S kv t0 k v (some T) opts (t0 + e) hrt hne (by rw [hj]; exact hT),
      hj, if_pos (by omega)]
  · intro hT he
    have hj : jsOrI (some T) (jsOrI (optTtl opts) 300) = T := by
      simp [jsOrI]
      omega
    rw [set_get_roundtrip α S kv t0 k v (some T) opts (t0 + e) hrt hne (by rw [hj]; exact hT),
      hj, if_neg (by omega)]
  · intro ho he
    have hj : jsOrI none (jsOrI (optTtl opts) 300) = 300 := by
      simp [jsOrI, ho]
    rw [set_get_roundtrip α S kv t0 k v none opts (t0 + e) hrt hne (by rw [hj]; decide),
      hj, if_pos (by omega)]
  · intro ho he
    have hj : jsOrI none (jsOrI (optTtl opts) 300) = 300 := by
      simp [jsOrI, ho]
    rw [set_get_roundtrip α S kv t0 k v none opts (t0 + e) hrt hne (by rw [hj]; decide),
      hj, if_neg (by omega)]

/-- Witness for the amended cache round trip at concrete inputs: TTL 10,
reads at 3 and 11 elapsed seconds, plus the absent-TTL default at 299
and 301 elapsed seconds. -/
theorem cache_ttl_roundtrip_amended_witness :
    idSer.parse (idSer.stringify "v") = some "v" ∧ idSer.stringify "v" ≠ "" ∧
    (0 : Int) < 10 ∧
    (RedisCacheService.get idSer true
        (RedisCacheService.set idSer true [] 0 "k" "v" (some 10) none).store 3 "k" none).result
      = some "v" ∧
    (RedisCacheService.get idSer true
        (RedisCacheService.set idSer true [] 0 "k" "v" (some 10) none).store 11 "k" none).result
      = none ∧
    (RedisCacheService.get idSer true
        (RedisCacheService.set idSer true [] 0 "k" "v" none none).store 299 "k" none).result
      = some "v" ∧
    (RedisCacheService.get idSer true
        (RedisCacheService.set idSer true [] 0 "k" "v" none none).store 301 "k" none).result
      = none := by
  have h := cache_ttl_roundtrip_amended String idSer [] 0 "k" "v" none 10 3
    (by decide) (by decide)
  have h11 := cache_ttl_roundtrip_amended String idSer [] 0 "k" "v" none 10 11
    (by decide) (by decide)
  have h299 := cache_ttl_roundtrip_amended String idSer [] 0 "k" "v" none 10 299
    (by decide) (by decide)
  have h301 := cache_ttl_roundtrip_amended String idSer [] 0 "k" "v" none 10 301
    (by decide) (by decide)
  exact ⟨by decide, by decide, by decide,
    h.1 (by decide) (by decide),
    h11.2.1 (by decide) (by decide),
    h299.2.2.1 (by decide) (by decide),
    h301.2.2.2 (by decide) (by decide)⟩

/-- Inserting a timestamp into an empty window. -/
theorem zaddTs_nil (ts : Int) : zaddTs [] ts = [ts] := rfl

/-- Eviction removes nothing when every member is younger than the
window start. -/
theorem evict_keep_all (m : List Int) (ws : Int) (h : ∀ s ∈ m, ws < s) :
    evict m ws = m := by
  apply List.filter_eq_self.mpr
  intro s hs
  have := h s hs
  simp
  omega

/-- Once the admitted count has reached the limit, the expected decision
sequence no longer depends on the exact counter value. -/
theorem expectedDecisions_sat (limit : Nat) (W : Int) (ttlOf : Int → Int) :
    ∀ (ts : List Int) (j j' : Nat), limit ≤ j → limit ≤ j' →
      expectedDecisions limit W ttlOf j ts = expectedDecisions limit W ttlOf j' ts := by
  intro ts
  induction ts with
  | nil => intro j j' _ _; rfl
  | cons t rest ih =>
    intro j j' hj hj'
    simp only [expectedDecisions, if_neg (by omega : ¬ j < limit),
      if_neg (by omega : ¬ j' < limit)]
    rw [ih (j + 1) (j' + 1) (by omega) (by omega)]

/-- Main invariant of the sequential run: starting from a window holding
`m.length ≤ limit` timestamps that are all older than, and within one
window of, every upcoming check instant, the guard produces exactly the
decision sequence asserted by the spec. -/
theorem runChecks_spec (limit : Nat) (W : Int) (ttlOf : Int → Int) :
    ∀ (ts : List Int) (m : List Int),
      m.length ≤ limit →
      (∀ s ∈ m, ∀ t ∈ ts, s < t ∧ t - s < W) →
      List.Pairwise (· < ·) ts →
      (∀ a ∈ ts, ∀ b ∈ ts, b - a < W) →
      (runChecks limit W ttlOf m ts).1 = expectedDecisions limit W ttlOf m.length ts := by
  intro ts
  induction ts with
  | nil => intro m _ _ _ _; rfl
  | cons t rest ih =>
    intro m hlen hmem hpw hspan
    have hkeep : evict m (t - W) = m := by
      apply evict_keep_all
      intro s hs
      have := (hmem s hs t (by simp)).2
      omega
    by_cases hc : limit ≤ m.length
    · have hm : m.length = limit := le_antisymm hlen hc
      have htail : (runChecks limit W ttlOf m rest).1 =
          expectedDecisions limit W ttlOf m.length rest := by
        apply ih m hlen
        · intro s hs t2 ht2
          exact hmem s hs t2 (by simp [ht2])
        · exact (List.pairwise_cons.mp hpw).2
        · intro a ha b hb
          exact hspan a (by simp [ha]) b (by simp [hb])
      simp only [runChecks, canActivateUp, hkeep, if_pos hc]
      simp only [expectedDecisions, if_neg (by omega : ¬ m.length < limit)]
      rw [htail, hm,
        expectedDecisions_sat limit W ttlOf rest limit (limit + 1) (by omega) (by omega)]
    · have hnotmem : t ∉ m := by
        intro hin
        exact absurd (hmem t hin t (by simp)).1 (lt_irrefl t)
      have htail : (runChecks limit W ttlOf (m ++ [t]) rest).1 =
          expectedDecisions limit W ttlOf (m ++ [t]).length rest := by
        apply ih (m ++ [t])
        · simp
          omega
        · intro s hs t2 ht2
          rcases List.mem_append.mp hs with hsm | hst
          · exact hmem s hsm t2 (by simp [ht2])
          · have hst' : s = t := by simpa using hst
            subst hst'
            constructor
            · exact (List.pairwise_cons.mp hpw).1 t2 ht2
            · exact hspan s (by simp) t2 (by simp [ht2])
        · exact (List.pairwise_cons.mp hpw).2
        · intro a ha b hb
          exact hspan a (by simp [ha]) b (by simp [hb])
      have hmax : max 0 ((limit : Int) - m.length - 1) = (limit : Int) - (m.length + 1) := by
        rw [max_eq_right] <;> omega
      have hlen2 : (m ++ [t]).length = m.length + 1 := by simp
      simp only [runChecks, canActivateUp, hkeep, if_neg hc, zaddTs, if_neg hnotmem]
      simp only [expectedDecisions, if_pos (by omega : m.length < limit)]
      rw [htail, hlen2, hmax]

/-- Unfolding the admitted-decision counter by one element. -/
theorem countAdmitted_cons (d : Decision) (ds : List Decision) :
    countAdmitted (d :: ds) =
      countAdmitted ds + (match d with | .admitted _ _ _ => 1 | .rejected _ => 0) := by
  cases d <;> simp [countAdmitted, List.countP_cons]

/-- The expected decision sequence admits exactly `min N (limit - k)`
requests. -/
theorem countAdmitted_expected (limit : Nat) (W : Int) (ttlOf : Int → Int) :
    ∀ (ts : List Int) (k : Nat),
      countAdmitted (expectedDecisions limit W ttlOf k ts) = min ts.length (limit - k) := by
  intro ts
  induction ts with
  | nil => intro k; simp [expectedDecisions, countAdmitted]
  | cons t rest ih =>
    intro k
    by_cases hk : k < limit
    · simp only [expectedDecisions, if_pos hk, countAdmitted_cons, ih (k + 1),
        List.length_cons]
      omega
    · simp only [expectedDecisions, if_neg hk, countAdmitted_cons, ih (k + 1),
        List.length_cons]
      omega

/-- C4.  For every limit, window, and sequence of sequential (non-racing)
admission checks at strictly increasing instants all lying within one
window of each other, starting from a fresh key: the decisions are
exactly the spec's sequence — the `k`-th check (1-based, `k ≤ limit`) is
admitted with header `remaining = limit - k` and reset instant `now +
windowMs`, and every later check is rejected with `current = limit ≥
limit` and `remaining = 0` — and exactly `min N limit` checks are
admitted. -/
theorem limiter_sequential_admissions :
    ∀ (limit : Nat) (windowMs : Int) (ttlOf : Int → Int) (ts : List Int),
    List.Pairwise (· < ·) ts →
    (∀ a ∈ ts, ∀ b ∈ ts, b - a < windowMs) →
    (runChecks limit windowMs ttlOf [] ts).1 =
      expectedDecisions limit windowMs ttlOf 0 ts ∧
    countAdmitted (runChecks limit windowMs ttlOf [] ts).1 = min ts.length limit := by
  intro limit W ttlOf ts hpw hspan
  have h := runChecks_spec limit W ttlOf ts [] (by simp) (by simp) hpw hspan
  refine ⟨h, ?_⟩
  rw [h, countAdmitted_expected limit W ttlOf ts]
  simp

/-- Witness for the sequential-admission theorem: limit 2, window
1000 ms, three checks at 0, 1, 2 ms. -/
theorem limiter_sequential_admissions_witness :
    List.Pairwise (· < ·) [(0 : Int), 1, 2] ∧
    (∀ a ∈ [(0 : Int), 1, 2], ∀ b ∈ [(0 : Int), 1, 2], b - a < 1000) ∧
    (runChecks 2 1000 (fun _ => 10) [] [0, 1, 2]).1 =
      expectedDecisions 2 1000 (fun _ => 10) 0 [0, 1, 2] ∧
    countAdmitted (runChecks 2 1000 (fun _ => 10) [] [0, 1, 2]).1 = min 3 2 := by
  refine ⟨by decide, by decide, ?_, ?_⟩
  · exact (limiter_sequential_admissions 2 1000 (fun _ => 10) [0, 1, 2]
      (by decide) (by decide)).1
  · exact (limiter_sequential_admissions 2 1000 (fun _ => 10) [0, 1, 2]
      (by decide) (by decide)).2

/-- C10.  A rejected admission check changes the window only by evicting
expired members: the rejection branch never inserts the request's
timestamp, so rejected requests consume no window capacity. -/
theorem limiter_reject_no_insert :
    ∀ (limit : Nat) (windowMs now ttlNow : Int) (members m2 : List Int) (b : RejectBody),
    canActivate true limit windowMs now ttlNow members = .ok (.rejected b, m2) →
    m2 = evict members (now - windowMs) := by
  intro limit W now ttl members m2 b h
  simp only [canActivate, if_true, canActivateUp] at h
  split at h
  · simp only [Except.ok.injEq, Prod.mk.injEq] at h
    exact h.2.symm
  · simp at h

/-- Witness for the rejection theorem: limit 1 with one live member. -/
theorem limiter_reject_no_insert_witness :
    canActivate true 1 1000 6 0 [5] = .ok (.rejected ⟨429, 1, 1, 0, 1⟩, [5]) ∧
    [(5 : Int)] = evict [5] (6 - 1000) := by
  refine ⟨by decide, ?_⟩
  exact limiter_reject_no_insert 1 1000 6 0 [5] [5] ⟨429, 1, 1, 0, 1⟩ (by decide)

/-- C6.  Fail-open under store outage: when every store operation of the
admission check fails, `getCurrentCount` reports 0, the check admits the
request and `incrementCount` swallows its own failure, so `canActivate`
returns an admission (no error reaches the caller); and a cache `get`
against the unreachable store returns absent rather than raising. -/
theorem limiter_fail_open :
    ∀ (α : Type) (S : Serializer α) (limit : Nat) (windowMs now ttlNow : Int)
      (members : List Int) (kv : Kv) (nc : Int) (k : String)
      (opts : Option CacheOptions),
    1 ≤ limit →
    canActivate false limit windowMs now ttlNow members =
      .ok (.admitted limit ((limit : Int) - 1) (now + windowMs), members) ∧
    (RedisCacheService.get S false kv nc k opts).result = none := by
  intro α S limit W now ttl members kv nc k opts hL
  refine ⟨?_, rfl⟩
  simp only [canActivate, Bool.false_eq_true, if_false]
  rw [if_neg (by omega : ¬ limit = 0),
    max_eq_right (by omega : (0 : Int) ≤ (limit : Int) - 1)]

/-- Witness for fail-open: limit 3 against a dead store still admits,
and `get` yields absent. -/
theorem limiter_fail_open_witness :
    1 ≤ 3 ∧
    canActivate false 3 1000 50 0 [7] = .ok (.admitted 3 2 1050, [7]) ∧
    (RedisCacheService.get idSer false [] 0 "k" none).result = none := by
  have h := limiter_fail_open String idSer 3 1000 50 0 [7] [] 0 "k" none (by decide)
  exact ⟨by decide, h.1, h.2⟩

/-- C7.  Sliding-window eviction: (1) after the eviction step, every
counted timestamp lies within `[now - windowMs, now]` (given that
members are genuine past `Date.now()` values); (2) once time has
advanced past the window length with no further requests, the next
check finds an empty window — count 0 — and is admitted with the full
limit available (`remaining = limit - 1`, a fresh window containing only
the new timestamp). -/
theorem limiter_window_eviction :
    ∀ (limit : Nat) (windowMs now ttlNow tLast : Int) (members : List Int),
    ((∀ s ∈ members, 0 ≤ s ∧ s ≤ now) →
      ∀ s ∈ evict members (now - windowMs), now - windowMs ≤ s ∧ s ≤ now) ∧
    ((∀ s ∈ members, 0 ≤ s ∧ s ≤ tLast) → tLast + windowMs < now → 1 ≤ limit →
      evict members (now - windowMs) = [] ∧
      canActivateUp limit windowMs now ttlNow members =
        (.admitted limit ((limit : Int) - 1) (now + windowMs), [now])) := by
  intro limit W now ttl tLast members
  constructor
  · intro hm s hs
    have hin : s ∈ members := List.mem_of_mem_filter hs
    have hcond := List.of_mem_filter hs
    simp at hcond
    have := hm s hin
    omega
  · intro hm hpast hL
    have hempty : evict members (now - W) = [] := by
      apply List.filter_eq_nil_iff.mpr
      intro s hs
      have := hm s hs
      simp
      omega
    refine ⟨hempty, ?_⟩
    simp only [canActivateUp, hempty, zaddTs_nil, List.length_nil, Nat.cast_zero, sub_zero]
    rw [if_neg (by omega : ¬ limit ≤ 0),
      max_eq_right (by omega : (0 : Int) ≤ (limit : Int) - 1)]

/-- Witness for window eviction: one stale member from 500 ms, window
1000 ms, checked at 2000 ms with limit 3. -/
theorem limiter_window_eviction_witness :
    (∀ s ∈ [(500 : Int)], 0 ≤ s ∧ s ≤ 500) ∧ (500 : Int) + 1000 < 2000 ∧ 1 ≤ 3 ∧
    evict [(500 : Int)] (2000 - 1000) = [] ∧
    canActivateUp 3 1000 2000 7 [500] = (.admitted 3 2 3000, [2000]) := by
  have h := (limiter_window_eviction 3 1000 2000 7 500 [500]).2
    (by decide) (by decide) (by decide)
  exact ⟨by decide, by decide, by decide, h.1, h.2⟩

/-- A glob pattern that starts with a literal (wildcard-free) segment
only matches strings that start with that very segment. -/
theorem globMatch_append_literal :
    ∀ (lit pat s : List Char), (∀ c ∈ lit, c ≠ '*' ∧ c ≠ '?') →
      globMatch (lit ++ pat) s = true →
      ∃ s2, s = lit ++ s2 ∧ globMatch pat s2 = true := by
  intro lit
  induction lit with
  | nil =>
    intro pat s _ h
    exact ⟨s, rfl, h⟩
  | cons c lit' ih =>
    intro pat s hlit h
    have hc := hlit c (by simp)
    rw [List.cons_append] at h
    cases s with
    | nil =>
      rw [globMatch.eq_2, if_neg hc.1, if_neg hc.2] at h
      exact absurd h (by simp)
    | cons c2 s2 =>
      rw [globMatch.eq_3, if_neg hc.1, if_neg hc.2] at h
      simp only [Bool.and_eq_true, beq_iff_eq] at h
      obtain ⟨hceq, hrest⟩ := h
      obtain ⟨s3, hs3, hm⟩ := ih pat s2 (fun d hd => hlit d (by simp [hd])) hrest
      exact ⟨s3, by rw [hceq, hs3, List.cons_append], hm⟩

/-- Any key matching a namespaced pattern `ns:pat` (with a
wildcard-free namespace) carries the `ns:` namespace prefix. -/
theorem strGlob_ns_decompose (ns pat s : String)
    (hns : ∀ c ∈ ns.data, c ≠ '*' ∧ c ≠ '?')
    (h : strGlobMatch (ns ++ ":" ++ pat) s = true) :
    ∃ r : String, s = ns ++ ":" ++ r := by
  have hdata : (ns ++ ":" ++ pat).data = (ns ++ ":").data ++ pat.data := by
    simp [String.data_append]
  rw [strGlobMatch, hdata] at h
  have hlit : ∀ c ∈ (ns ++ ":").data, c ≠ '*' ∧ c ≠ '?' := by
    intro c hc
    rw [String.data_append] at hc
    rcases List.mem_append.mp hc with h1 | h2
    · exact hns c h1
    · have h3 : (":" : String).data = [':'] := rfl
      rw [h3] at h2
      simp at h2
      subst h2
      exact ⟨by decide, by decide⟩
  obtain ⟨s2, hs2, _⟩ := globMatch_append_literal (ns ++ ":").data pat.data s.data hlit h
  refine ⟨String.mk s2, ?_⟩
  apply String.ext
  rw [hs2]
  simp [String.data_append]

/-- The `clear` pattern `ns:*` is the namespaced form of `*`. -/
theorem string_colon_star (ns : String) : ns ++ ":*" = ns ++ ":" ++ "*" := by
  rw [String.append_assoc]
  rfl

/-- A JS-defaulted namespace is never the empty string. -/
theorem jsOrS_app_ne_empty (o : Option String) : jsOrS o "app" ≠ "" := by
  cases o with
  | none => decide
  | some x =>
    simp only [jsOrS]
    split
    · decide
    · assumption

/-- A truthy namespace passes through the JS default. -/
theorem jsOrS_some_ne (x : String) (h : x ≠ "") : jsOrS (some x) "app" = x := by
  simp [jsOrS, h]

/-- `buildKey` applied to an already-defaulted namespace (as `mset`
does) yields the same `ns:key` form. -/
theorem buildKey_jsOrS (key : String) (o : Option String) :
    buildKey key (some (jsOrS o "app")) = jsOrS o "app" ++ ":" ++ key := by
  unfold buildKey
  rw [jsOrS_some_ne _ (jsOrS_app_ne_empty o)]

/-- C8.  Namespace invariant: every key handed to the store by `set`,
`get`, `delete`, `has`, `increment`, `mget` and `mset` is exactly
`<namespace>:<key>` — the supplied namespace when a truthy one is given
and the default `app` otherwise; `deleteByPattern` and `clear` hand the
store the namespaced pattern, and (for a wildcard-free namespace) every
key they match and delete also carries the `<namespace>:` prefix, so no
operation ever touches an unprefixed key. -/
theorem cache_namespacing :
    ∀ (α : Type) (S : Serializer α) (up : Bool) (kv : Kv) (now : Int) (key : String)
      (v : α) (ttl : Option Int) (opts : Option CacheOptions) (keys : List String)
      (pairs : List (MsetEntry α)) (pat : String) (nsArg : Option String),
    (RedisCacheService.set S up kv now key v ttl opts).touched =
      [jsOrS (optNs opts) "app" ++ ":" ++ key] ∧
    (RedisCacheService.get S up kv now key opts).touched =
      [jsOrS (optNs opts) "app" ++ ":" ++ key] ∧
    (RedisCacheService.delete up kv now key opts).touched =
      [jsOrS (optNs opts) "app" ++ ":" ++ key] ∧
    (RedisCacheService.has up kv now key opts).touched =
      [jsOrS (optNs opts) "app" ++ ":" ++ key] ∧
    (RedisCacheService.increment up kv now key opts).touched =
      [jsOrS (optNs opts) "app" ++ ":" ++ key] ∧
    (RedisCacheService.mget S up kv now keys opts).touched =
      keys.map (fun k => jsOrS (optNs opts) "app" ++ ":" ++ k) ∧
    (RedisCacheService.mset S up kv now pairs opts).touched =
      pairs.map (fun e => jsOrS (optNs opts) "app" ++ ":" ++ e.key) ∧
    ((∀ c ∈ (jsOrS (optNs opts) "app").data, c ≠ '*' ∧ c ≠ '?') →
      ∀ fk ∈ (RedisCacheService.deleteByPattern up kv now pat opts).touched,
        ∃ r, fk = jsOrS (optNs opts) "app" ++ ":" ++ r) ∧
    ((∀ c ∈ (jsOrS nsArg "app").data, c ≠ '*' ∧ c ≠ '?') →
      ∀ fk ∈ (RedisCacheService.clear up kv now nsArg).touched,
        ∃ r, fk = jsOrS nsArg "app" ++ ":" ++ r) ∧
    (∀ n : String, n ≠ "" → jsOrS (some n) "app" = n) ∧
    jsOrS (none : Option String) "app" = "app" := by
  intro α S up kv now key v ttl opts keys pairs pat nsArg
  refine ⟨?_, ?_, ?_, ?_, ?_, ?_, ?_, ?_, ?_, ?_, rfl⟩
  · unfold RedisCacheService.set
    dsimp only
    split <;> split <;> rfl
  · unfold RedisCacheService.get
    dsimp only
    split <;> rfl
  · unfold RedisCacheService.delete
    dsimp only
    split <;> rfl
  · unfold RedisCacheService.has
    dsimp only
    split <;> rfl
  · unfold RedisCacheService.increment
    dsimp only
    split <;> rfl
  · unfold RedisCacheService.mget
    dsimp only
    split <;> rfl
  · unfold RedisCacheService.mset
    dsimp only
    split <;> simp only [buildKey_jsOrS]
  · intro hns fk hfk
    unfold RedisCacheService.deleteByPattern at hfk
    dsimp only at hfk
    split at hfk
    · next cnt ks kv2 heq =>
      rcases List.mem_cons.mp hfk with hhd | htl
      · exact ⟨pat, hhd⟩
      · unfold clientScanDel at heq
        split at heq
        · simp only [Except.ok.injEq, Prod.mk.injEq] at heq
          obtain ⟨-, hks, -⟩ := heq
          rw [← hks] at htl
          obtain ⟨e, he, hek⟩ := List.mem_map.mp htl
          have hmatch := (Bool.and_eq_true _ _ ▸ List.of_mem_filter he).2
          rw [hek] at hmatch
          obtain ⟨r, hr⟩ := strGlob_ns_decompose (jsOrS (optNs opts) "app") pat fk hns hmatch
          exact ⟨r, hr⟩
        · exact absurd heq (by simp)
    · next e heq =>
      simp only [List.mem_singleton] at hfk
      exact ⟨pat, hfk⟩
  · intro hns fk hfk
    unfold RedisCacheService.clear at hfk
    dsimp only at hfk
    split at hfk
    · next cnt ks kv2 heq =>
      rcases List.mem_cons.mp hfk with hhd | htl
      · exact ⟨"*", by rw [hhd, string_colon_star]⟩
      · unfold clientScanDel at heq
        split at heq
        · simp only [Except.ok.injEq, Prod.mk.injEq] at heq
          obtain ⟨-, hks, -⟩ := heq
          rw [← hks] at htl
          obtain ⟨e, he, hek⟩ := List.mem_map.mp htl
          have hmatch := (Bool.and_eq_true _ _ ▸ List.of_mem_filter he).2
          rw [hek, string_colon_star] at hmatch
          obtain ⟨r, hr⟩ := strGlob_ns_decompose (jsOrS nsArg "app") "*" fk hns hmatch
          exact ⟨r, hr⟩
        · exact absurd heq (by simp)
    · next e heq =>
      simp only [List.mem_singleton] at hfk
      exact ⟨"*", by rw [hfk, string_colon_star]⟩
  · intro n hn
    simp [jsOrS, hn]

/-- Witness for the namespacing theorem: the default namespace is
wildcard-free and concrete operations touch only `app:`-prefixed
keys and patterns. -/
theorem cache_namespacing_witness :
    (∀ c ∈ ("app" : String).data, c ≠ '*' ∧ c ≠ '?') ∧
    (∀ fk ∈ (RedisCacheService.deleteByPattern false [] 0 "p" none).touched,
      ∃ r, fk = jsOrS (optNs none) "app" ++ ":" ++ r) ∧
    (RedisCacheService.get idSer true [] 0 "k" none).touched = ["app:k"] := by
  have h := cache_namespacing String idSer false [] 0 "k" "v" none none [] [] "p" none
  refine ⟨by decide, ?_, ?_⟩
  · exact h.2.2.2.2.2.2.2.1 (by decide)
  · exact (cache_namespacing String idSer true [] 0 "k" "v" none none [] [] "p" none).2.1

/-- C9.  Circuit-breaker registry contract: a first `execute` (or
`createCircuitBreaker`) for a name builds the breaker from the supplied
operation and merged options and caches it under that name; every later
`execute` with the same name reuses the cached breaker and leaves the
registry unchanged; an open breaker short-circuits without invoking the
wrapped operation (its outcome is independent of the operation); and
every `execute` outcome is the wrapped operation's own result or
failure, the configured fallback, or the short-circuit error. -/
theorem breaker_registry_contract :
    ∀ (R : Type) (reg : List (String × CircuitBreaker R)) (name : String)
      (fn : Unit → Except Unit R) (options : Option (CircuitBreakerOptions R))
      (cfg : CBConfig),
    (lookupBreaker reg name = none →
      CircuitBreakerService.execute reg name fn options cfg =
        (fire (mkBreaker fn options cfg), (name, mkBreaker fn options cfg) :: reg)) ∧
    (∀ b, lookupBreaker reg name = some b →
      CircuitBreakerService.execute reg name fn options cfg = (fire b, reg)) ∧
    (∀ b : CircuitBreaker R, b.state = .opened → ∀ fn2,
      fire { b with fn := fn2 } = fire b) ∧
    (∀ b : CircuitBreaker R,
      (∃ r, fire b = .success r) ∨ fire b = .failure ∨
      (∃ r, b.fb ≠ none ∧ fire b = .fromFallback r) ∨ fire b = .shortCircuit) := by
  intro R reg name fn options cfg
  refine ⟨?_, ?_, ?_, ?_⟩
  · intro h
    unfold CircuitBreakerService.execute CircuitBreakerService.createCircuitBreaker
    rw [h]
  · intro b h
    unfold CircuitBreakerService.execute CircuitBreakerService.createCircuitBreaker
    rw [h]
  · intro b hb fn2
    simp only [fire, hb]
  · intro b
    cases hs : b.state with
    | opened =>
      cases hfb : b.fb with
      | none =>
        right; right; right
        simp [fire, hs, hfb]
      | some f =>
        right; right; left
        exact ⟨f (), by simp [hfb], by simp [fire, hs, hfb]⟩
    | closed =>
      cases hfn : b.fn () with
      | ok r => exact Or.inl ⟨r, by simp [fire, hs, hfn]⟩
      | error e =>
        cases hfb : b.fb with
        | none =>
          right; left
          simp [fire, hs, hfn, hfb]
        | some f =>
          right; right; left
          exact ⟨f (), by simp [hfb], by simp [fire, hs, hfn, hfb]⟩
    | halfOpen =>
      cases hfn : b.fn () with
      | ok r => exact Or.inl ⟨r, by simp [fire, hs, hfn]⟩
      | error e =>
        cases hfb : b.fb with
        | none =>
          right; left
          simp [fire, hs, hfn, hfb]
        | some f =>
          right; right; left
          exact ⟨f (), by simp [hfb], by simp [fire, hs, hfn, hfb]⟩

/-- Witness for the breaker-registry contract: an empty registry, a
fresh name, and an operation returning 5. -/
theorem breaker_registry_contract_witness :
    lookupBreaker ([] : List (String × CircuitBreaker Nat)) "db" = none ∧
    CircuitBreakerService.execute [] "db" (fun _ => .ok 5) none {} =
      (fire (mkBreaker (fun _ => .ok 5) none {}),
        [("db", mkBreaker (fun _ => .ok 5) none {})]) ∧
    fire (mkBreaker (fun _ => (.ok 5 : Except Unit Nat)) none {}) = .success 5 := by
  refine ⟨rfl, ?_, rfl⟩
  exact (breaker_registry_contract Nat [] "db" (fun _ => .ok 5) none {}).1 rfl
